import Mathlib

/-!
Shallow embedding of the enrollment lifecycle and quiz scoring logic of the
course-marketplace application (src/models.py, src/routes.py), together with
theorems checking the specification's claims about them.

Conventions of the embedding:
* `datetime` values are integer timestamps counted in seconds;
  `timedelta(days=d)` is `daysDelta d = d * 86400`.
* SQLAlchemy rows become structures; tables become lists of rows; queries
  become `List.find?` / `List.filter` over those lists.
* Python `float` quantities (prices, scores) are modelled as rationals.
* HTTP request data (`request.form.get`) is a function from question id to
  `Option String` (`none` = field absent, as in Python `None`).
-/

set_option autoImplicit false

namespace EduOnline

/-- `timedelta(days=d)` on the seconds-based timestamp scale. -/
def daysDelta (d : Int) : Int := d * 86400

/-- `Course` (src/models.py): the fields the enrollment and payment logic
reads. `price` is the course price, `duration_days` the subscription length
used by `calculate_expiry_date`. -/
structure Course where
  id : Nat
  instructor_id : Nat
  title : String
  price : ℚ
  duration_days : Int
  deriving Repr, DecidableEq

/-- `Course.calculate_expiry_date` (src/models.py): the enrollment date plus
the course duration in days. -/
def Course.calculate_expiry_date (c : Course) (enrollment_date : Int) : Int :=
  enrollment_date + daysDelta c.duration_days

/-- `Enrollment` (src/models.py). Column defaults from the model definition:
`completed=False`, `progress=0.0`, `expires_at=None`,
`subscription_type='unlimited'`, `is_active=True`,
`subscription_renewed=None`. -/
structure Enrollment where
  student_id : Nat
  course_id : Nat
  enrolled_at : Int
  completed : Bool
  progress : ℚ
  expires_at : Option Int
  subscription_type : String
  is_active : Bool
  subscription_renewed : Option Int
  deriving Repr, DecidableEq

/-- `Enrollment.is_expired` (src/models.py): an enrollment with no expiry
date never expires; otherwise it is expired once `now` is strictly past
`expires_at`. -/
def Enrollment.is_expired (e : Enrollment) (now : Int) : Bool :=
  match e.expires_at with
  | none => false
  | some t => now > t

/-- `Enrollment.renew_subscription` (src/models.py): if an expiry date exists
and `now` is strictly before it, add `duration_days` days to it; otherwise
set it to `now` plus `duration_days` days. Also records the renewal time and
re-activates the enrollment. -/
def Enrollment.renew_subscription (e : Enrollment) (now : Int)
    (duration_days : Int) : Enrollment :=
  let new_expiry :=
    match e.expires_at with
    | some t =>
        if now < t then t + daysDelta duration_days
        else now + daysDelta duration_days
    | none => now + daysDelta duration_days
  { e with expires_at := some new_expiry,
           subscription_renewed := some now,
           is_active := true }

/-- C2: `renew_subscription(d)` extends the expiry from the later of `now`
and the current expiry (an absent expiry counting as `now`): on a non-expired
enrollment with expiry `t` the new expiry is `t` plus `d` days, and on an
expired enrollment it is `now` plus `d` days. -/
theorem renew_subscription_spec (e : Enrollment) (now d : Int) :
    (e.renew_subscription now d).expires_at
        = some (max now (e.expires_at.getD now) + daysDelta d)
    ∧ (∀ t, e.expires_at = some t → e.is_expired now = false →
        (e.renew_subscription now d).expires_at = some (t + daysDelta d))
    ∧ (e.is_expired now = true →
        (e.renew_subscription now d).expires_at
          = some (now + daysDelta d)) := by
  unfold Enrollment.renew_subscription Enrollment.is_expired
  cases h : e.expires_at with
  | none =>
      refine ⟨by simp, fun t ht => by simp_all, fun hex => by simp_all⟩
  | some t =>
      by_cases hlt : now < t
      · refine ⟨?_, fun t' ht' hne => ?_, fun hex => ?_⟩
        · simp [hlt, max_eq_right (le_of_lt hlt)]
        · simp only [h, Option.some.injEq] at ht'
          subst ht'
          simp [hlt]
        · simp only [h, decide_eq_true_eq] at hex
          omega
      · have hge : t ≤ now := le_of_not_lt hlt
        refine ⟨?_, fun t' ht' hne => ?_, fun hex => ?_⟩
        · simp [hlt, max_eq_left hge]
        · simp only [h, Option.some.injEq] at ht'
          subst ht'
          simp only [decide_eq_false_iff_not, Int.not_lt] at hne
          have heq : now = t := le_antisymm hne hge
          simp [hlt, heq]
        · simp [hlt]

/-- Witness for C2 at a concrete non-expired enrollment: expiry 100 000,
renewed at time 50 000 for 2 days, yields expiry 100 000 + 2 days. -/
theorem renew_subscription_spec_witness :
    (({ student_id := 1, course_id := 7, enrolled_at := 0, completed := false,
        progress := 0, expires_at := some 100000,
        subscription_type := "monthly", is_active := true,
        subscription_renewed := none } : Enrollment).renew_subscription
          50000 2).expires_at = some (100000 + daysDelta 2) :=
  (renew_subscription_spec _ 50000 2).2.1 100000 rfl (by decide)

/-! ### Quiz data model and scoring (src/models.py, src/routes.py take_quiz) -/

/-- `question_type` column of `Question` (src/models.py). -/
inductive QuestionType where
  | multiple_choice
  | true_false
  | short_answer
  deriving Repr, DecidableEq

/-- `Answer` (src/models.py): one answer option of a question. -/
structure Answer where
  id : Nat
  question_id : Nat
  text : String
  is_correct : Bool
  deriving Repr, DecidableEq

/-- `Question` (src/models.py) with its owned answers
(the `answers` relationship). -/
structure Question where
  id : Nat
  quiz_id : Nat
  text : String
  question_type : QuestionType
  points : Int
  answers : List Answer
  deriving Repr, DecidableEq

/-- The points the submission loop of `take_quiz` (src/routes.py) adds for
one question. `answersDb` is the whole `Answer` table: the multiple-choice
branch looks the submitted id up with `Answer.query.get`, i.e. by primary
key over all answers, not only the question's own. `form qid` is
`request.form.get('question_qid')`. The guard `if selected_answer_id:` makes
both an absent field and an empty string skip the lookup; the true/false
branch compares the submitted value to the text of the first answer flagged
correct, with `none == none` counting as a match as in Python; short-answer
questions add nothing. -/
def questionScore (answersDb : List Answer) (form : Nat → Option String)
    (q : Question) : Int :=
  match q.question_type with
  | .multiple_choice =>
      match form q.id with
      | none => 0
      | some s =>
          if s = "" then 0
          else
            match answersDb.find? (fun a => toString a.id == s) with
            | some a => if a.is_correct then q.points else 0
            | none => 0
  | .true_false =>
      if form q.id = (q.answers.find? (fun a => a.is_correct)).map
          (fun a => a.text)
      then q.points else 0
  | .short_answer => 0

/-- Whether the submission loop of `take_quiz` treats `q` as answered
correctly: the condition under which it adds `q.points`. -/
def answeredCorrectly (answersDb : List Answer) (form : Nat → Option String)
    (q : Question) : Bool :=
  match q.question_type with
  | .multiple_choice =>
      match form q.id with
      | none => false
      | some s =>
          if s = "" then false
          else
            match answersDb.find? (fun a => toString a.id == s) with
            | some a => a.is_correct
            | none => false
  | .true_false =>
      form q.id == (q.answers.find? (fun a => a.is_correct)).map
          (fun a => a.text)
  | .short_answer => false

/-- `total_points = sum(q.points for q in questions)` in `take_quiz`. -/
def totalPoints (questions : List Question) : Int :=
  (questions.map (fun q => q.points)).sum

/-- The accumulated `score` after the loop over `questions` in `take_quiz`. -/
def rawScore (answersDb : List Answer) (form : Nat → Option String)
    (questions : List Question) : Int :=
  (questions.map (questionScore answersDb form)).sum

/-- `percentage_score = (score / total_points * 100) if total_points > 0
else 0` in `take_quiz`, with the float division modelled over ℚ. -/
def percentageScore (answersDb : List Answer) (form : Nat → Option String)
    (questions : List Question) : ℚ :=
  if 0 < totalPoints questions then
    (rawScore answersDb form questions : ℚ)
      / (totalPoints questions : ℚ) * 100
  else 0

theorem questionScore_eq_ite (answersDb : List Answer)
    (form : Nat → Option String) (q : Question) :
    questionScore answersDb form q
      = if answeredCorrectly answersDb form q then q.points else 0 := by
  unfold questionScore answeredCorrectly
  cases q.question_type with
  | multiple_choice =>
      cases form q.id with
      | none => simp
      | some s =>
          by_cases hs : s = ""
          · simp [hs]
          · simp only [hs, if_false]
            cases answersDb.find? (fun a => toString a.id == s) with
            | none => simp
            | some a => cases ha : a.is_correct <;> simp [ha]
  | true_false =>
      by_cases h : form q.id
          = (q.answers.find? (fun a => a.is_correct)).map (fun a => a.text)
      · simp [h]
      · simp [h]
  | short_answer => simp

theorem rawScore_eq_filter_sum (answersDb : List Answer)
    (form : Nat → Option String) (questions : List Question) :
    rawScore answersDb form questions
      = ((questions.filter (answeredCorrectly answersDb form)).map
          (fun q => q.points)).sum := by
  induction questions with
  | nil => rfl
  | cons q qs ih =>
      simp only [rawScore, List.map_cons, List.sum_cons, List.filter_cons]
      rw [questionScore_eq_ite]
      by_cases h : answeredCorrectly answersDb form q
      · simp [h, rawScore] at ih ⊢
        omega
      · simp [h, rawScore] at ih ⊢
        exact ih

/-- The example quiz of the claim: a 1-point and a 3-point multiple-choice
question, each with a right and a wrong answer option. -/
def exampleQuestions : List Question :=
  [ { id := 1, quiz_id := 5, text := "Q1", question_type := .multiple_choice,
      points := 1,
      answers := [ { id := 11, question_id := 1, text := "right",
                     is_correct := true },
                   { id := 12, question_id := 1, text := "wrong",
                     is_correct := false } ] },
    { id := 2, quiz_id := 5, text := "Q2", question_type := .multiple_choice,
      points := 3,
      answers := [ { id := 21, question_id := 2, text := "right",
                     is_correct := true },
                   { id := 22, question_id := 2, text := "wrong",
                     is_correct := false } ] } ]

/-- The `Answer` table holding the example quiz's answers. -/
def exampleAnswersDb : List Answer :=
  (exampleQuestions.map (fun q => q.answers)).flatten

/-- A submission answering the 1-point question wrongly and the 3-point
question correctly. -/
def exampleForm : Nat → Option String
  | 1 => some "12"
  | 2 => some "21"
  | _ => none

/-- C1: for a submitted attempt on a quiz with positive total points, the
recorded score is the sum of the points of the correctly-answered questions
divided by the total points, times 100; in particular the example quiz with
a 1-point and a 3-point question, of which only the 3-point one is answered
correctly, is scored 75. -/
theorem take_quiz_score_formula :
    (∀ (answersDb : List Answer) (form : Nat → Option String)
        (questions : List Question),
      0 < totalPoints questions →
      percentageScore answersDb form questions
        = (((questions.filter (answeredCorrectly answersDb form)).map
              (fun q => q.points)).sum : ℚ)
            / (totalPoints questions : ℚ) * 100)
    ∧ percentageScore exampleAnswersDb exampleForm exampleQuestions = 75 := by
  constructor
  · intro answersDb form questions h
    rw [percentageScore, if_pos h, rawScore_eq_filter_sum,
      Int.cast_list_sum, List.map_map]
    rfl
  · have hraw : rawScore exampleAnswersDb exampleForm exampleQuestions = 3 :=
      by decide
    have htot : totalPoints exampleQuestions = 4 := by decide
    rw [percentageScore, if_pos (by decide), hraw, htot]
    norm_num

/-- Witness for C1: the score formula applied to the example quiz. -/
theorem take_quiz_score_formula_witness :
    percentageScore exampleAnswersDb exampleForm exampleQuestions
      = (((exampleQuestions.filter
            (answeredCorrectly exampleAnswersDb exampleForm)).map
              (fun q => q.points)).sum : ℚ)
          / (totalPoints exampleQuestions : ℚ) * 100 :=
  take_quiz_score_formula.1 exampleAnswersDb exampleForm exampleQuestions
    (by decide)

/-- C9: for a true/false question whose first correct-flagged answer is `c`,
the submission loop awards the question's points exactly when the submitted
text is literally the string `c.text`. -/
theorem true_false_literal_match (answersDb : List Answer)
    (form : Nat → Option String) (q : Question) (c : Answer)
    (hq : q.question_type = QuestionType.true_false)
    (hc : q.answers.find? (fun a => a.is_correct) = some c) :
    questionScore answersDb form q
      = if form q.id = some c.text then q.points else 0 := by
  unfold questionScore
  rw [hq, hc]
  rfl

/-- A concrete true/false question whose stored correct answer is "True". -/
def tfQuestion : Question :=
  { id := 9, quiz_id := 5, text := "Sky is blue?",
    question_type := QuestionType.true_false, points := 2,
    answers := [ { id := 91, question_id := 9, text := "True",
                   is_correct := true },
                 { id := 92, question_id := 9, text := "False",
                   is_correct := false } ] }

/-- Witness for C9: the true/false rule applied to `tfQuestion` under a
submission answering "True". -/
theorem true_false_literal_match_witness :
    questionScore [] (fun _ => some "True") tfQuestion
      = if (fun _ => some "True") tfQuestion.id
            = some ({ id := 91, question_id := 9, text := "True",
                      is_correct := true } : Answer).text
        then tfQuestion.points else 0 :=
  true_false_literal_match [] (fun _ => some "True") tfQuestion _ rfl rfl

theorem questionScore_le_points (answersDb : List Answer)
    (form : Nat → Option String) (q : Question) (h : 0 ≤ q.points) :
    questionScore answersDb form q ≤ q.points := by
  rw [questionScore_eq_ite]
  by_cases hc : answeredCorrectly answersDb form q <;> simp [hc, h]

theorem questionScore_short_answer (answersDb : List Answer)
    (form : Nat → Option String) (q : Question)
    (h : q.question_type = QuestionType.short_answer) :
    questionScore answersDb form q = 0 := by
  unfold questionScore
  rw [h]

theorem rawScore_le_totalPoints (answersDb : List Answer)
    (form : Nat → Option String) (qs : List Question)
    (hnn : ∀ q ∈ qs, 0 ≤ q.points) :
    rawScore answersDb form qs ≤ totalPoints qs := by
  induction qs with
  | nil => simp [rawScore, totalPoints]
  | cons q qs ih =>
      simp only [rawScore, totalPoints, List.map_cons, List.sum_cons] at ih ⊢
      have h1 : questionScore answersDb form q ≤ q.points :=
        questionScore_le_points _ _ _ (hnn q (by simp))
      have h2 := ih (fun p hp => hnn p (by simp [hp]))
      omega

theorem rawScore_le_sub (answersDb : List Answer)
    (form : Nat → Option String) (qs : List Question) (q0 : Question)
    (hmem : q0 ∈ qs) (hsa : q0.question_type = QuestionType.short_answer)
    (hnn : ∀ q ∈ qs, 0 ≤ q.points) :
    rawScore answersDb form qs ≤ totalPoints qs - q0.points := by
  induction qs with
  | nil => cases hmem
  | cons q qs ih =>
      simp only [rawScore, totalPoints, List.map_cons, List.sum_cons]
      rcases List.mem_cons.mp hmem with h0 | h0
      · subst h0
        have h1 : questionScore answersDb form q0 = 0 :=
          questionScore_short_answer _ _ _ hsa
        have h2 : rawScore answersDb form qs ≤ totalPoints qs :=
          rawScore_le_totalPoints _ _ _ (fun p hp => hnn p (by simp [hp]))
        simp only [rawScore, totalPoints] at h2
        omega
      · have h1 : questionScore answersDb form q ≤ q.points :=
          questionScore_le_points _ _ _ (hnn q (by simp))
        have h2 := ih h0 (fun p hp => hnn p (by simp [hp]))
        simp only [rawScore, totalPoints] at h2
        omega

/-- C10: a short-answer question's points count toward the total-points
denominator but are never earned, so an auto-scored attempt on a quiz
containing a short-answer question worth `q0.points > 0` scores at most
`(T - q0.points) / T * 100`, and in particular strictly below 100. The
nonnegativity hypothesis reflects the question form's `points` validator
(`NumberRange(min=1)` in src/forms.py). -/
theorem short_answer_never_full_score (answersDb : List Answer)
    (form : Nat → Option String) (qs : List Question) (q0 : Question)
    (hmem : q0 ∈ qs) (hsa : q0.question_type = QuestionType.short_answer)
    (hp : 0 < q0.points) (hT : 0 < totalPoints qs)
    (hnn : ∀ q ∈ qs, 0 ≤ q.points) :
    percentageScore answersDb form qs
        ≤ ((totalPoints qs - q0.points : Int) : ℚ)
            / (totalPoints qs : ℚ) * 100
    ∧ percentageScore answersDb form qs < 100 := by
  have hraw : rawScore answersDb form qs ≤ totalPoints qs - q0.points :=
    rawScore_le_sub answersDb form qs q0 hmem hsa hnn
  have hTQ : (0 : ℚ) < (totalPoints qs : ℚ) := by exact_mod_cast hT
  have hle : percentageScore answersDb form qs
      ≤ ((totalPoints qs - q0.points : Int) : ℚ)
          / (totalPoints qs : ℚ) * 100 := by
    rw [percentageScore, if_pos hT]
    have hcast : (rawScore answersDb form qs : ℚ)
        ≤ ((totalPoints qs - q0.points : Int) : ℚ) := by exact_mod_cast hraw
    gcongr
  refine ⟨hle, lt_of_le_of_lt hle ?_⟩
  have hlt : ((totalPoints qs - q0.points : Int) : ℚ)
      < (totalPoints qs : ℚ) := by
    push_cast
    have : (0 : ℚ) < (q0.points : ℚ) := by exact_mod_cast hp
    linarith
  have h1 : ((totalPoints qs - q0.points : Int) : ℚ)
      / (totalPoints qs : ℚ) < 1 := (div_lt_one hTQ).mpr hlt
  nlinarith

/-- The example quiz of C10's witness: a 2-point multiple-choice question
and a 2-point short-answer question. -/
def mixedQuestions : List Question :=
  [ { id := 1, quiz_id := 6, text := "Q1",
      question_type := QuestionType.multiple_choice, points := 2,
      answers := [ { id := 11, question_id := 1, text := "right",
                     is_correct := true } ] },
    { id := 2, quiz_id := 6, text := "Q2",
      question_type := QuestionType.short_answer, points := 2,
      answers := [] } ]

/-- Witness for C10: the bound applied to the mixed example quiz. -/
theorem short_answer_never_full_score_witness :
    (percentageScore [] (fun _ => none) mixedQuestions
        ≤ ((totalPoints mixedQuestions
              - (mixedQuestions.get ⟨1, by decide⟩).points : Int) : ℚ)
            / (totalPoints mixedQuestions : ℚ) * 100
      ∧ percentageScore [] (fun _ => none) mixedQuestions < 100) :=
  short_answer_never_full_score [] (fun _ => none) mixedQuestions
    (mixedQuestions.get ⟨1, by decide⟩) (by decide) (by decide) (by decide)
    (by decide) (by decide)

/-! ### Enrollment and payment routes (src/routes.py) -/

/-- `Payment` (src/models.py): record kept around the external provider. -/
structure Payment where
  user_id : Nat
  course_id : Nat
  amount : ℚ
  payment_id : String
  status : String
  deriving Repr, DecidableEq

/-- `Notification` (src/models.py): the fields written by `enroll_course`. -/
structure Notification where
  user_id : Nat
  title : String
  message : String
  notification_type : String
  related_id : Nat
  deriving Repr, DecidableEq

/-- The database state the enrollment and payment routes read and write:
the `Enrollment`, `Payment` and `Notification` tables. -/
structure AppState where
  enrollments : List Enrollment
  payments : List Payment
  notifications : List Notification
  deriving Repr, DecidableEq

/-- The empty database. -/
def emptyState : AppState :=
  { enrollments := [], payments := [], notifications := [] }

/-- `Enrollment.query.filter_by(student_id=..., course_id=...).first()`. -/
def findEnrollment (s : AppState) (user cid : Nat) : Option Enrollment :=
  s.enrollments.find? (fun e => e.student_id == user && e.course_id == cid)

/-- Where control flow leaves `enroll_course`. -/
inductive EnrollOutcome where
  | redirectRenew
  | redirectView
  | enrolledFree
  | redirectCheckout
  deriving Repr, DecidableEq

/-- The `Enrollment(...)` record `enroll_course` builds for a free course:
unlimited subscription, no expiry, active; the remaining columns take the
model defaults. -/
def freeEnrollmentRecord (now : Int) (user cid : Nat) : Enrollment :=
  { student_id := user, course_id := cid, enrolled_at := now,
    completed := false, progress := 0, expires_at := none,
    subscription_type := "unlimited", is_active := true,
    subscription_renewed := none }

/-- `enroll_course` (src/routes.py): an existing expired enrollment
redirects to renewal, an existing current one to the course page; a free
course enrolls immediately (adding the enrollment and two notifications);
a paid course redirects to checkout without touching the database. -/
def enroll_course (now : Int) (user : Nat) (username : String)
    (course : Course) (s : AppState) : AppState × EnrollOutcome :=
  match findEnrollment s user course.id with
  | some e =>
      if e.is_expired now then (s, EnrollOutcome.redirectRenew)
      else (s, EnrollOutcome.redirectView)
  | none =>
      if course.price = 0 then
        let n1 : Notification :=
          { user_id := user, title := "Course Enrollment",
            message := "You have successfully enrolled in "
              ++ course.title ++ ".",
            notification_type := "enrollment", related_id := course.id }
        let n2 : Notification :=
          { user_id := course.instructor_id,
            title := "New Student Enrollment",
            message := username ++ " has enrolled in your course "
              ++ course.title ++ ".",
            notification_type := "enrollment", related_id := course.id }
        ({ s with
            enrollments :=
              s.enrollments ++ [freeEnrollmentRecord now user course.id],
            notifications := s.notifications ++ [n1, n2] },
          EnrollOutcome.enrolledFree)
      else (s, EnrollOutcome.redirectCheckout)

/-- Where control flow leaves the `checkout` page route. -/
inductive CheckoutOutcome where
  | redirectView
  | renderCheckout
  deriving Repr, DecidableEq

/-- `checkout` (src/routes.py): redirects when an enrollment already
exists, otherwise renders the checkout page; it never writes. -/
def checkout (user : Nat) (course : Course) (s : AppState) :
    AppState × CheckoutOutcome :=
  match findEnrollment s user course.id with
  | some _ => (s, CheckoutOutcome.redirectView)
  | none => (s, CheckoutOutcome.renderCheckout)

/-- `create_checkout_session` (src/routes.py): the whole body runs inside
`try`/`except`. The name `stripe` is unbound in the module (routes.py has
no `import stripe`), so `stripe.checkout.Session.create` raises `NameError`
before the pending-`Payment` insert is reached, the blanket
`except Exception` logs and redirects, and the database is untouched: the
route is a no-op on state. -/
def create_checkout_session (_user : Nat) (_course : Course)
    (_session_id : String) (s : AppState) : AppState :=
  s

/-- The filter of `Payment.query.filter_by(user_id=..., course_id=...,
status='pending')` in `payment_success`. -/
def isPendingFor (user cid : Nat) (p : Payment) : Bool :=
  p.user_id == user && p.course_id == cid && p.status == "pending"

/-- Marking the first matching pending payment 'completed', as the
`payment.status = 'completed'` assignment does to the row `first()`
returned. -/
def completeFirstPending (user cid : Nat) : List Payment → List Payment
  | [] => []
  | p :: ps =>
      if isPendingFor user cid p then { p with status := "completed" } :: ps
      else p :: completeFirstPending user cid ps

/-- The `Enrollment(student_id=..., course_id=...)` record `payment_success`
builds: every other column takes the model default, in particular
`expires_at=None`. -/
def paidEnrollmentRecord (now : Int) (user cid : Nat) : Enrollment :=
  { student_id := user, course_id := cid, enrolled_at := now,
    completed := false, progress := 0, expires_at := none,
    subscription_type := "unlimited", is_active := true,
    subscription_renewed := none }

/-- `payment_success` (src/routes.py): if a pending payment for the user
and course exists, mark it completed and add an enrollment; otherwise only
flash a message. It does not check for an existing enrollment. -/
def payment_success (now : Int) (user : Nat) (course : Course)
    (s : AppState) : AppState :=
  match s.payments.find? (isPendingFor user course.id) with
  | some _ =>
      { s with
          payments := completeFirstPending user course.id s.payments,
          enrollments :=
            s.enrollments ++ [paidEnrollmentRecord now user course.id] }
  | none => s

/-- `renew_course` applying `Enrollment.renew_subscription` to the
(student, course) enrollment rows. -/
def renewFor (now : Int) (user cid : Nat) (d : Int) (s : AppState) :
    AppState :=
  { s with enrollments := s.enrollments.map (fun e =>
      if e.student_id == user && e.course_id == cid
      then e.renew_subscription now d else e) }

/-- C3: enrolling in a free course with no existing enrollment immediately
appends one active, never-expiring, unlimited enrollment for the student and
course, and leaves the `Payment` table untouched. -/
theorem free_course_enrollment (now : Int) (user : Nat) (username : String)
    (course : Course) (s : AppState) (hfree : course.price = 0)
    (hnone : findEnrollment s user course.id = none) :
    (enroll_course now user username course s).2
        = EnrollOutcome.enrolledFree
    ∧ (enroll_course now user username course s).1.payments = s.payments
    ∧ ∃ e, (enroll_course now user username course s).1.enrollments
            = s.enrollments ++ [e]
        ∧ e.student_id = user ∧ e.course_id = course.id
        ∧ e.expires_at = none ∧ e.subscription_type = "unlimited"
        ∧ e.is_active = true := by
  unfold enroll_course
  rw [hnone, if_pos hfree]
  exact ⟨rfl, rfl, freeEnrollmentRecord now user course.id, rfl, rfl, rfl,
    rfl, rfl, rfl⟩

/-- Witness for C3: student 1 enrolling in a concrete free course from the
empty database. -/
theorem free_course_enrollment_witness :
    (enroll_course 500 1 "alice"
        { id := 4, instructor_id := 2, title := "Intro", price := 0,
          duration_days := 30 } emptyState).2
        = EnrollOutcome.enrolledFree
    ∧ (enroll_course 500 1 "alice"
        { id := 4, instructor_id := 2, title := "Intro", price := 0,
          duration_days := 30 } emptyState).1.payments = emptyState.payments
    ∧ ∃ e, (enroll_course 500 1 "alice"
            { id := 4, instructor_id := 2, title := "Intro", price := 0,
              duration_days := 30 } emptyState).1.enrollments
            = emptyState.enrollments ++ [e]
        ∧ e.student_id = 1 ∧ e.course_id = 4
        ∧ e.expires_at = none ∧ e.subscription_type = "unlimited"
        ∧ e.is_active = true :=
  free_course_enrollment 500 1 "alice" _ emptyState rfl rfl

theorem find?_split {α : Type} (p : α → Bool) (l : List α) (a : α)
    (h : l.find? p = some a) :
    p a = true ∧ ∃ l1 l2, l = l1 ++ a :: l2 ∧ ∀ x ∈ l1, p x = false := by
  induction l with
  | nil => cases h
  | cons b bs ih =>
      by_cases hb : p b
      · rw [List.find?_cons_of_pos _ hb] at h
        cases h
        exact ⟨hb, [], bs, rfl, by simp⟩
      · rw [List.find?_cons_of_neg _ hb] at h
        obtain ⟨hpa, l1, l2, hl, hall⟩ := ih h
        refine ⟨hpa, b :: l1, l2, by simp [hl], ?_⟩
        intro x hx
        rcases List.mem_cons.mp hx with rfl | hx
        · exact Bool.of_not_eq_true hb
        · exact hall x hx

theorem completeFirstPending_append (user cid : Nat) (l1 l2 : List Payment)
    (p : Payment) (h1 : ∀ x ∈ l1, isPendingFor user cid x = false)
    (hp : isPendingFor user cid p = true) :
    completeFirstPending user cid (l1 ++ p :: l2)
      = l1 ++ ({ p with status := "completed" } :: l2) := by
  induction l1 with
  | nil => simp [completeFirstPending, hp]
  | cons b bs ih =>
      have hb : isPendingFor user cid b = false := h1 b (by simp)
      simp only [List.cons_append, completeFirstPending, hb,
        Bool.false_eq_true, if_false, List.cons.injEq, true_and]
      exact ih (fun x hx => h1 x (by simp [hx]))

/-- C5: for a paid course, `enroll_course` never writes and, absent an
existing enrollment, redirects to checkout; `payment_success` changes
nothing when no pending payment exists, and when the first pending payment
for the user and course is `p` it marks exactly that payment completed and
appends one new active enrollment for the pair. -/
theorem paid_course_payment_flow (now : Int) (user : Nat)
    (username : String) (course : Course) (s : AppState)
    (hpaid : 0 < course.price) :
    (enroll_course now user username course s).1 = s
    ∧ (findEnrollment s user course.id = none →
        (enroll_course now user username course s).2
          = EnrollOutcome.redirectCheckout)
    ∧ (s.payments.find? (isPendingFor user course.id) = none →
        payment_success now user course s = s)
    ∧ (∀ p, s.payments.find? (isPendingFor user course.id) = some p →
        ∃ l1 l2, s.payments = l1 ++ p :: l2
          ∧ (∀ x ∈ l1, isPendingFor user course.id x = false)
          ∧ isPendingFor user course.id p = true
          ∧ (payment_success now user course s).payments
              = l1 ++ ({ p with status := "completed" } :: l2)
          ∧ ∃ e, (payment_success now user course s).enrollments
                  = s.enrollments ++ [e]
              ∧ e.student_id = user ∧ e.course_id = course.id
              ∧ e.is_active = true ∧ e.expires_at = none) := by
  have hne : ¬ course.price = 0 := by
    intro h
    rw [h] at hpaid
    exact lt_irrefl 0 hpaid
  refine ⟨?_, ?_, ?_, ?_⟩
  · unfold enroll_course
    cases h : findEnrollment s user course.id with
    | some e => by_cases hex : e.is_expired now <;> simp [hex]
    | none => simp [hne]
  · intro hnone
    unfold enroll_course
    rw [hnone]
    simp [hne]
  · intro hnone
    unfold payment_success
    rw [hnone]
  · intro p hp
    obtain ⟨hpa, l1, l2, hl, hall⟩ :=
      find?_split (isPendingFor user course.id) s.payments p hp
    refine ⟨l1, l2, hl, hall, hpa, ?_, ?_⟩
    · unfold payment_success
      rw [hp]
      simp only
      rw [hl, completeFirstPending_append user course.id l1 l2 p hall hpa]
    · refine ⟨paidEnrollmentRecord now user course.id, ?_, rfl, rfl, rfl,
        rfl⟩
      unfold payment_success
      rw [hp]

/-- A concrete paid course. -/
def paidCourse : Course :=
  { id := 7, instructor_id := 2, title := "Systems", price := 50,
    duration_days := 30 }

/-- A concrete pending payment of student 1 for `paidCourse`. -/
def pendingPayment : Payment :=
  { user_id := 1, course_id := 7, amount := 50, payment_id := "cs_a",
    status := "pending" }

/-- A database holding only `pendingPayment`. -/
def pendingState : AppState :=
  { enrollments := [], payments := [pendingPayment], notifications := [] }

/-- Witness for C5: the paid-course flow applied to `paidCourse` and
`pendingState`. -/
theorem paid_course_payment_flow_witness :
    (enroll_course 500 1 "alice" paidCourse pendingState).1 = pendingState
    ∧ (findEnrollment pendingState 1 paidCourse.id = none →
        (enroll_course 500 1 "alice" paidCourse pendingState).2
          = EnrollOutcome.redirectCheckout)
    ∧ (pendingState.payments.find? (isPendingFor 1 paidCourse.id) = none →
        payment_success 500 1 paidCourse pendingState = pendingState)
    ∧ (∀ p, pendingState.payments.find? (isPendingFor 1 paidCourse.id)
            = some p →
        ∃ l1 l2, pendingState.payments = l1 ++ p :: l2
          ∧ (∀ x ∈ l1, isPendingFor 1 paidCourse.id x = false)
          ∧ isPendingFor 1 paidCourse.id p = true
          ∧ (payment_success 500 1 paidCourse pendingState).payments
              = l1 ++ ({ p with status := "completed" } :: l2)
          ∧ ∃ e, (payment_success 500 1 paidCourse pendingState).enrollments
                  = pendingState.enrollments ++ [e]
              ∧ e.student_id = 1 ∧ e.course_id = paidCourse.id
              ∧ e.is_active = true ∧ e.expires_at = none) :=
  paid_course_payment_flow 500 1 "alice" paidCourse pendingState
    (by norm_num [paidCourse])

/-- C4 (code bug): `payment_success` builds its `Enrollment` with the
column defaults, so `expires_at` stays `None`: a paid enrollment never gets
the expiry `enrolled_at + duration_days` that `Course.calculate_expiry_date`
computes — the `set_expiry_date` helper is never called. Evaluated at
student 1 paying for `paidCourse` (duration 30 days) at time 600: the
created enrollment's expiry is `none`, while the claimed expiry is
`600 + 30` days. -/
theorem paid_enrollment_expiry_bug :
    (payment_success 600 1 paidCourse pendingState).enrollments.map
        (fun e => e.expires_at) = [none]
    ∧ paidCourse.calculate_expiry_date 600 = 600 + daysDelta 30
    ∧ ((payment_success 600 1 paidCourse pendingState).enrollments.map
        (fun e => e.expires_at)
          ≠ [some (paidCourse.calculate_expiry_date 600)]) := by
  refine ⟨?_, rfl, ?_⟩ <;> decide

/-! ### The checkout-flow operations, for reachability of database states -/

/-- One invocation of an enrollment-lifecycle route: `enroll_course`, the
`checkout` page, `create_checkout_session`, `payment_success`, or
`renew_subscription` on the (student, course) enrollment. -/
inductive LifecycleOp where
  | enroll (now : Int) (user : Nat) (username : String) (course : Course)
  | checkoutPage (user : Nat) (course : Course)
  | createSession (user : Nat) (course : Course) (session_id : String)
  | paySuccess (now : Int) (user : Nat) (course : Course)
  | renew (now : Int) (user : Nat) (cid : Nat) (d : Int)
  deriving Repr

/-- The database effect of one route invocation. -/
def applyOp : LifecycleOp → AppState → AppState
  | LifecycleOp.enroll now u un c, s => (enroll_course now u un c s).1
  | LifecycleOp.checkoutPage u c, s => (checkout u c s).1
  | LifecycleOp.createSession u c sid, s => create_checkout_session u c sid s
  | LifecycleOp.paySuccess now u c, s => payment_success now u c s
  | LifecycleOp.renew now u cid d, s => renewFor now u cid d s

/-- Running a sequence of route invocations from a database state. -/
def runOps : List LifecycleOp → AppState → AppState
  | [], s => s
  | op :: ops, s => runOps ops (applyOp op s)

/-- How many active (and unexpired) enrollments the pair (student, course)
has at time `now`. -/
def activeEnrollmentCount (s : AppState) (now : Int) (user cid : Nat) :
    Nat :=
  (s.enrollments.filter (fun e =>
    e.student_id == user && e.course_id == cid && e.is_active
      && !e.is_expired now)).length

/-- How many enrollment rows, active or not, the (student, course) pair
has. -/
def enrollmentRowCount (s : AppState) (user cid : Nat) : Nat :=
  s.enrollments.countP (fun e => e.student_id == user && e.course_id == cid)

/-- The inductive invariant of the lifecycle operations run from the empty
database: no payment rows exist (the only route inserting one is the
unreachable branch of `create_checkout_session`), and each (student,
course) pair has at most one enrollment row of any kind. -/
def EnrollInv (s : AppState) : Prop :=
  s.payments = []
    ∧ ∀ user cid, enrollmentRowCount s user cid ≤ 1

theorem enroll_course_state (now : Int) (u : Nat) (un : String)
    (c : Course) (s : AppState) :
    (enroll_course now u un c s).1 = s
    ∨ (findEnrollment s u c.id = none
        ∧ (enroll_course now u un c s).1.enrollments
            = s.enrollments ++ [freeEnrollmentRecord now u c.id]
        ∧ (enroll_course now u un c s).1.payments = s.payments) := by
  unfold enroll_course
  cases hf : findEnrollment s u c.id with
  | some e => exact Or.inl (by by_cases hex : e.is_expired now <;> simp [hex])
  | none =>
      by_cases hp : c.price = 0
      · exact Or.inr ⟨rfl, by simp [hp], by simp [hp]⟩
      · exact Or.inl (by simp [hp])

theorem checkout_state (u : Nat) (c : Course) (s : AppState) :
    (checkout u c s).1 = s := by
  unfold checkout
  cases hf : findEnrollment s u c.id <;> simp

theorem payment_success_no_payments (now : Int) (u : Nat) (c : Course)
    (s : AppState) (hpay : s.payments = []) :
    payment_success now u c s = s := by
  unfold payment_success
  rw [hpay]
  rfl

theorem countP_eq_zero_of_find?_none {α : Type} (p : α → Bool) (l : List α)
    (h : l.find? p = none) : l.countP p = 0 := by
  rw [List.countP_eq_zero]
  exact fun a ha => List.find?_eq_none.mp h a ha

theorem renewFor_counts (now : Int) (u cid : Nat) (d : Int) (s : AppState)
    (user' cid' : Nat) :
    enrollmentRowCount (renewFor now u cid d s) user' cid'
      = enrollmentRowCount s user' cid' := by
  unfold enrollmentRowCount renewFor
  simp only [List.countP_map]
  apply List.countP_congr
  intro e _
  simp only [Function.comp_apply]
  by_cases hc : e.student_id = u ∧ e.course_id = cid
  · simp [Enrollment.renew_subscription, hc]
  · simp [hc]

theorem applyOp_inv (op : LifecycleOp) (s : AppState) (h : EnrollInv s) :
    EnrollInv (applyOp op s) := by
  obtain ⟨hpay, hcnt⟩ := h
  cases op with
  | enroll now u un c =>
      show EnrollInv (enroll_course now u un c s).1
      rcases enroll_course_state now u un c s with heq | ⟨hf, hen, hpa⟩
      · rw [heq]
        exact ⟨hpay, hcnt⟩
      · refine ⟨by rw [hpa, hpay], fun user' cid' => ?_⟩
        rw [enrollmentRowCount, hen, List.countP_append]
        by_cases hpair : u = user' ∧ c.id = cid'
        · obtain ⟨rfl, rfl⟩ := hpair
          have h0 : s.enrollments.countP
              (fun e => e.student_id == u && e.course_id == c.id) = 0 := by
            apply countP_eq_zero_of_find?_none
            unfold findEnrollment at hf
            exact hf
          have h1 : List.countP
              (fun e => e.student_id == u && e.course_id == c.id)
              [freeEnrollmentRecord now u c.id] ≤ 1 :=
            le_trans (List.countP_le_length _) (by simp)
          omega
        · have hnew : (fun e => e.student_id == user'
              && e.course_id == cid') (freeEnrollmentRecord now u c.id)
                = false := by
            simp only [freeEnrollmentRecord, Bool.and_eq_false_iff]
            rcases Decidable.not_and_iff_or_not.mp hpair with hne | hne
            · exact Or.inl (by simpa using hne)
            · exact Or.inr (by simpa using hne)
          have h1 : List.countP
              (fun e => e.student_id == user' && e.course_id == cid')
              [freeEnrollmentRecord now u c.id] = 0 := by
            simp [List.countP_cons, hnew]
          have h2 := hcnt user' cid'
          rw [enrollmentRowCount] at h2
          omega
  | checkoutPage u c =>
      show EnrollInv (checkout u c s).1
      rw [checkout_state]
      exact ⟨hpay, hcnt⟩
  | createSession u c sid =>
      exact ⟨hpay, hcnt⟩
  | paySuccess now u c =>
      show EnrollInv (payment_success now u c s)
      rw [payment_success_no_payments now u c s hpay]
      exact ⟨hpay, hcnt⟩
  | renew now u cid d =>
      refine ⟨hpay, fun user' cid' => ?_⟩
      show enrollmentRowCount (renewFor now u cid d s) user' cid' ≤ 1
      rw [renewFor_counts]
      exact hcnt user' cid'

theorem runOps_inv (ops : List LifecycleOp) (s : AppState)
    (h : EnrollInv s) : EnrollInv (runOps ops s) := by
  induction ops generalizing s with
  | nil => exact h
  | cons op ops ih => exact ih _ (applyOp_inv op s h)

/-- C6: in every database state reachable from the empty database through
the enrollment-lifecycle routes — `enroll_course`, the `checkout` page,
`create_checkout_session`, `payment_success`, and `renew_subscription` —
each (student, course) pair has at most one active enrollment. The
unguarded insert in `payment_success` is unreachable: no reachable state
holds a pending `Payment`, because the only inserting route,
`create_checkout_session`, always fails on the unbound name `stripe`
before writing, and `enroll_course` refuses to enroll a student who has
any enrollment row for the course. -/
theorem at_most_one_active_enrollment (ops : List LifecycleOp) (now : Int)
    (user cid : Nat) :
    activeEnrollmentCount (runOps ops emptyState) now user cid ≤ 1 := by
  have hinv : EnrollInv (runOps ops emptyState) :=
    runOps_inv ops emptyState
      ⟨rfl, fun _ _ => by simp [enrollmentRowCount, emptyState]⟩
  have hle : activeEnrollmentCount (runOps ops emptyState) now user cid
      ≤ enrollmentRowCount (runOps ops emptyState) user cid := by
    rw [activeEnrollmentCount, enrollmentRowCount,
      ← List.countP_eq_length_filter]
    apply List.countP_mono_left
    intro e _ hp
    simp only [Bool.and_eq_true] at hp ⊢
    exact ⟨hp.1.1.1, hp.1.1.2⟩
  exact le_trans hle (hinv.2 user cid)

/-! ### Quiz attempts (src/routes.py take_quiz) -/

/-- `QuizAttempt` (src/models.py). -/
structure QuizAttempt where
  id : Nat
  quiz_id : Nat
  student_id : Nat
  score : ℚ
  completed : Bool
  started_at : Int
  completed_at : Option Int
  deriving Repr, DecidableEq

/-- `Quiz` (src/models.py): id and owned questions, the parts `take_quiz`
reads. -/
structure Quiz where
  id : Nat
  questions : List Question
  deriving Repr, DecidableEq

/-- One HTTP request to the `take_quiz` route: the quiz, the requesting
student, the request time, whether the enrollment-or-instructor check
passes (`allowed`), the submitted form when `form.validate_on_submit()`
holds (`none` models a GET or an invalid form), and the `Answer` table. -/
structure QuizRequest where
  quiz : Quiz
  student : Nat
  now : Int
  allowed : Bool
  submission : Option (Nat → Option String)
  answersDb : List Answer

/-- The filter of `QuizAttempt.query.filter_by(quiz_id=..., student_id=...,
completed=False)`. -/
def isIncompleteFor (qid student : Nat) (a : QuizAttempt) : Bool :=
  a.quiz_id == qid && a.student_id == student && a.completed == false

/-- The autoincremented primary key the database hands a freshly inserted
attempt: strictly larger than every existing id. -/
def freshId (attempts : List QuizAttempt) : Nat :=
  (attempts.map (fun a => a.id)).foldr max 0 + 1

/-- `take_quiz` (src/routes.py) acting on the `QuizAttempt` table: an
unauthorized user is redirected; otherwise an existing incomplete attempt
of the (student, quiz) pair is reused, a new one is inserted when none
exists, and if a valid form was submitted, that attempt is scored with
`percentageScore`, marked completed, and stamped. -/
def newAttempt (r : QuizRequest) (attempts : List QuizAttempt) :
    QuizAttempt :=
  { id := freshId attempts, quiz_id := r.quiz.id, student_id := r.student,
    score := 0, completed := false, started_at := r.now,
    completed_at := none }

/-- The `attempt.score = ... / attempt.completed = True /
attempt.completed_at = ...` assignments of `take_quiz`, applied to the row
whose id is `targetId`. -/
def completeWith (r : QuizRequest) (form : Nat → Option String)
    (targetId : Nat) (a : QuizAttempt) : QuizAttempt :=
  if a.id == targetId then
    { a with score := percentageScore r.answersDb form r.quiz.questions,
             completed := true, completed_at := some r.now }
  else a

def take_quiz (r : QuizRequest) (attempts : List QuizAttempt) :
    List QuizAttempt :=
  if r.allowed = false then attempts
  else
    match attempts.find? (isIncompleteFor r.quiz.id r.student),
        r.submission with
    | some _, none => attempts
    | some a, some form => attempts.map (completeWith r form a.id)
    | none, none => attempts ++ [newAttempt r attempts]
    | none, some form =>
        (attempts ++ [newAttempt r attempts]).map
          (completeWith r form (freshId attempts))

/-- Running a sequence of `take_quiz` requests against the table. -/
def runTakeQuiz : List QuizRequest → List QuizAttempt → List QuizAttempt
  | [], s => s
  | r :: rs, s => runTakeQuiz rs (take_quiz r s)

/-- How many incomplete attempts the (student, quiz) pair has. -/
def incompleteCount (attempts : List QuizAttempt) (qid student : Nat) :
    Nat :=
  attempts.countP (isIncompleteFor qid student)

theorem id_lt_freshId (attempts : List QuizAttempt) (a : QuizAttempt)
    (ha : a ∈ attempts) : a.id < freshId attempts := by
  have h : a.id ≤ (attempts.map (fun x => x.id)).foldr max 0 := by
    induction attempts with
    | nil => cases ha
    | cons b bs ih =>
        rcases List.mem_cons.mp ha with rfl | ha'
        · exact le_max_left _ _
        · exact le_trans (ih ha') (le_max_right _ _)
  exact Nat.lt_succ_of_le h

theorem completeWith_not_incomplete (r : QuizRequest)
    (form : Nat → Option String) (tid : Nat) (qid st : Nat)
    (a : QuizAttempt)
    (h : isIncompleteFor qid st (completeWith r form tid a) = true) :
    isIncompleteFor qid st a = true := by
  unfold completeWith at h
  by_cases hid : (a.id == tid) = true
  · rw [if_pos hid] at h
    exfalso
    simp [isIncompleteFor] at h
  · rwa [if_neg hid] at h

theorem countP_map_completeWith_le (r : QuizRequest)
    (form : Nat → Option String) (tid : Nat) (s : List QuizAttempt)
    (qid st : Nat) :
    (s.map (completeWith r form tid)).countP (isIncompleteFor qid st)
      ≤ s.countP (isIncompleteFor qid st) := by
  rw [List.countP_map]
  apply List.countP_mono_left
  intro a _ hpa
  simp only [Function.comp_apply] at hpa
  exact completeWith_not_incomplete r form tid qid st a hpa

theorem map_completeWith_fresh (r : QuizRequest)
    (form : Nat → Option String) (s : List QuizAttempt) :
    s.map (completeWith r form (freshId s)) = s := by
  have h : ∀ a ∈ s, completeWith r form (freshId s) a = id a := by
    intro a ha
    have hlt : a.id < freshId s := id_lt_freshId s a ha
    have hne : (a.id == freshId s) = false := by
      simp only [beq_eq_false_iff_ne, ne_eq]
      omega
    unfold completeWith
    rw [hne]
    · rfl
  rw [List.map_congr_left h, List.map_id]

theorem take_quiz_incomplete_le (r : QuizRequest) (s : List QuizAttempt)
    (hinv : ∀ qid st, incompleteCount s qid st ≤ 1) (qid st : Nat) :
    incompleteCount (take_quiz r s) qid st ≤ 1 := by
  unfold take_quiz
  by_cases hal : r.allowed = false
  · rw [if_pos hal]
    exact hinv qid st
  · rw [if_neg hal]
    cases hf : s.find? (isIncompleteFor r.quiz.id r.student) with
    | some f =>
        cases hsub : r.submission with
        | none => exact hinv qid st
        | some form =>
            exact le_trans (countP_map_completeWith_le r form f.id s qid st)
              (hinv qid st)
    | none =>
        cases hsub : r.submission with
        | none =>
            rw [incompleteCount, List.countP_append]
            by_cases hpair : r.quiz.id = qid ∧ r.student = st
            · obtain ⟨rfl, rfl⟩ := hpair
              have h0 := countP_eq_zero_of_find?_none
                (isIncompleteFor r.quiz.id r.student) s hf
              have h1 : List.countP (isIncompleteFor r.quiz.id r.student)
                  [newAttempt r s] ≤ 1 :=
                le_trans (List.countP_le_length _) (by simp)
              omega
            · have hnew : isIncompleteFor qid st (newAttempt r s)
                  = false := by
                simp only [isIncompleteFor, newAttempt, Bool.and_eq_false_iff]
                rcases Decidable.not_and_iff_or_not.mp hpair with h | h
                · exact Or.inl (Or.inl (by simpa using h))
                · exact Or.inl (Or.inr (by simpa using h))
              have h1 : List.countP (isIncompleteFor qid st)
                  [newAttempt r s] = 0 := by
                simp [List.countP_cons, hnew]
              have h2 := hinv qid st
              rw [incompleteCount] at h2
              omega
        | some form =>
            show incompleteCount
                ((s ++ [newAttempt r s]).map
                  (completeWith r form (freshId s))) qid st ≤ 1
            rw [List.map_append, map_completeWith_fresh r form s,
              incompleteCount, List.countP_append]
            have hdone : isIncompleteFor qid st
                (completeWith r form (freshId s)
                  ((List.map (completeWith r form (freshId s))
                    [newAttempt r s]).head (by simp))) = false := by
              simp [completeWith, newAttempt, isIncompleteFor]
            have h1 : List.countP (isIncompleteFor qid st)
                (List.map (completeWith r form (freshId s))
                  [newAttempt r s]) = 0 := by
              simp only [List.map_cons, List.map_nil, List.countP_cons,
                List.countP_nil]
              have : isIncompleteFor qid st
                  (completeWith r form (freshId s) (newAttempt r s))
                    = false := by
                simp [completeWith, newAttempt, isIncompleteFor]
              simp [this]
            have h2 := hinv qid st
            rw [incompleteCount] at h2
            omega

theorem runTakeQuiz_incomplete_le (reqs : List QuizRequest)
    (s : List QuizAttempt)
    (hinv : ∀ qid st, incompleteCount s qid st ≤ 1) (qid st : Nat) :
    incompleteCount (runTakeQuiz reqs s) qid st ≤ 1 := by
  induction reqs generalizing s with
  | nil => exact hinv qid st
  | cons r rs ih =>
      exact ih (take_quiz r s)
        (fun q u => take_quiz_incomplete_le r s hinv q u)

/-- C7: in every table of quiz attempts reachable from the empty table by
`take_quiz` requests, each (student, quiz) pair has at most one incomplete
attempt; moreover a request finding an existing incomplete attempt inserts
no row, and one finding none inserts exactly one. -/
theorem at_most_one_incomplete_attempt (reqs : List QuizRequest)
    (qid st : Nat) :
    incompleteCount (runTakeQuiz reqs []) qid st ≤ 1
    ∧ (∀ (r : QuizRequest) (s : List QuizAttempt) (f : QuizAttempt),
        r.allowed = true →
        s.find? (isIncompleteFor r.quiz.id r.student) = some f →
        (take_quiz r s).length = s.length)
    ∧ (∀ (r : QuizRequest) (s : List QuizAttempt),
        r.allowed = true →
        s.find? (isIncompleteFor r.quiz.id r.student) = none →
        (take_quiz r s).length = s.length + 1) := by
  refine ⟨?_, ?_, ?_⟩
  · exact runTakeQuiz_incomplete_le reqs []
      (fun _ _ => by simp [incompleteCount]) qid st
  · intro r s f hal hf
    unfold take_quiz
    rw [if_neg (by simp [hal]), hf]
    cases hsub : r.submission with
    | none => rfl
    | some form => simp
  · intro r s hal hf
    unfold take_quiz
    rw [if_neg (by simp [hal]), hf]
    cases hsub : r.submission with
    | none => simp
    | some form => simp

/-- A concrete GET request of student 1 for quiz 5. -/
def exampleRequest : QuizRequest :=
  { quiz := { id := 5, questions := [] }, student := 1, now := 10,
    allowed := true, submission := none, answersDb := [] }

/-- A concrete incomplete attempt of student 1 on quiz 5. -/
def incompleteAttempt : QuizAttempt :=
  { id := 3, quiz_id := 5, student_id := 1, score := 0, completed := false,
    started_at := 0, completed_at := none }

/-- Witness for C7's per-request clauses: `exampleRequest` against a table
holding one incomplete attempt inserts nothing, and against the empty
table inserts exactly one row. -/
theorem at_most_one_incomplete_attempt_witness :
    (take_quiz exampleRequest [incompleteAttempt]).length
        = [incompleteAttempt].length
    ∧ (take_quiz exampleRequest []).length
        = ([] : List QuizAttempt).length + 1 :=
  ⟨(at_most_one_incomplete_attempt [] 5 1).2.1 exampleRequest
      [incompleteAttempt] incompleteAttempt rfl (by decide),
    (at_most_one_incomplete_attempt [] 5 1).2.2 exampleRequest [] rfl rfl⟩

/-- Distinctness of attempt primary keys, as the database guarantees. -/
def idsNodup (s : List QuizAttempt) : Prop :=
  (s.map (fun a => a.id)).Nodup

theorem completeWith_id (r : QuizRequest) (form : Nat → Option String)
    (tid : Nat) (a : QuizAttempt) :
    (completeWith r form tid a).id = a.id := by
  unfold completeWith
  by_cases h : (a.id == tid) = true <;> simp [h]

theorem completeWith_ne (r : QuizRequest) (form : Nat → Option String)
    (tid : Nat) (a : QuizAttempt) (h : a.id ≠ tid) :
    completeWith r form tid a = a := by
  unfold completeWith
  rw [if_neg (by simpa using h)]

theorem map_completeWith_ids (r : QuizRequest) (form : Nat → Option String)
    (tid : Nat) (s : List QuizAttempt) :
    (s.map (completeWith r form tid)).map (fun a => a.id)
      = s.map (fun a => a.id) := by
  rw [List.map_map]
  exact List.map_congr_left (fun a _ => completeWith_id r form tid a)

theorem take_quiz_idsNodup (r : QuizRequest) (s : List QuizAttempt)
    (h : idsNodup s) : idsNodup (take_quiz r s) := by
  have happ : idsNodup (s ++ [newAttempt r s]) := by
    unfold idsNodup
    rw [List.map_append, List.nodup_append]
    refine ⟨h, List.nodup_singleton _, ?_⟩
    intro x hx hy
    simp only [List.map_cons, List.map_nil, List.mem_singleton] at hy
    obtain ⟨b, hb, rfl⟩ := List.mem_map.mp hx
    have hblt : b.id < freshId s := id_lt_freshId s b hb
    rw [hy] at hblt
    simp [newAttempt] at hblt
  unfold take_quiz
  by_cases hal : r.allowed = false
  · rw [if_pos hal]
    exact h
  · rw [if_neg hal]
    cases hf : s.find? (isIncompleteFor r.quiz.id r.student) with
    | some f =>
        cases hsub : r.submission with
        | none => exact h
        | some form =>
            show idsNodup (s.map (completeWith r form f.id))
            unfold idsNodup
            rw [map_completeWith_ids]
            exact h
    | none =>
        cases hsub : r.submission with
        | none => exact happ
        | some form =>
            show idsNodup ((s ++ [newAttempt r s]).map
              (completeWith r form (freshId s)))
            unfold idsNodup
            rw [map_completeWith_ids]
            exact happ

theorem take_quiz_preserves_completed (r : QuizRequest)
    (s : List QuizAttempt) (hnd : idsNodup s) (a : QuizAttempt)
    (ha : a ∈ s) (hc : a.completed = true) : a ∈ take_quiz r s := by
  unfold take_quiz
  by_cases hal : r.allowed = false
  · rw [if_pos hal]
    exact ha
  · rw [if_neg hal]
    cases hf : s.find? (isIncompleteFor r.quiz.id r.student) with
    | some f =>
        cases hsub : r.submission with
        | none => exact ha
        | some form =>
            show a ∈ s.map (completeWith r form f.id)
            have hfmem : f ∈ s := List.mem_of_find?_eq_some hf
            have hfp : isIncompleteFor r.quiz.id r.student f = true :=
              List.find?_some hf
            have hfinc : f.completed = false := by
              simp only [isIncompleteFor, Bool.and_eq_true, beq_iff_eq]
                at hfp
              exact hfp.2
            have hne : a.id ≠ f.id := by
              intro he
              have : a = f := List.inj_on_of_nodup_map hnd ha hfmem he
              rw [this, hfinc] at hc
              cases hc
            have heq : completeWith r form f.id a = a :=
              completeWith_ne r form f.id a hne
            exact heq ▸ List.mem_map_of_mem _ ha
    | none =>
        have hmem : a ∈ s ++ [newAttempt r s] := List.mem_append_left _ ha
        cases hsub : r.submission with
        | none => exact hmem
        | some form =>
            show a ∈ (s ++ [newAttempt r s]).map
              (completeWith r form (freshId s))
            have hlt : a.id < freshId s := id_lt_freshId s a ha
            have heq : completeWith r form (freshId s) a = a :=
              completeWith_ne r form (freshId s) a (by omega)
            exact heq ▸ List.mem_map_of_mem _ hmem

theorem runTakeQuiz_preserves_completed (reqs : List QuizRequest)
    (s : List QuizAttempt) (a : QuizAttempt) (hnd : idsNodup s)
    (ha : a ∈ s) (hc : a.completed = true) :
    a ∈ runTakeQuiz reqs s ∧ idsNodup (runTakeQuiz reqs s) := by
  induction reqs generalizing s with
  | nil => exact ⟨ha, hnd⟩
  | cons r rs ih =>
      exact ih (take_quiz r s) (take_quiz_idsNodup r s hnd)
        (take_quiz_preserves_completed r s hnd a ha hc)

/-- C8: a completed attempt is immutable under `take_quiz`: across any
sequence of further requests, the attempt row survives with its `score`,
`completed` and `completed_at` values intact, and no row with its id ever
differs from it — a second submission is blocked because the route only
selects attempts with `completed=False` for updating. -/
theorem completed_attempt_immutable (reqs : List QuizRequest)
    (s : List QuizAttempt) (a : QuizAttempt) (hnd : idsNodup s)
    (ha : a ∈ s) (hc : a.completed = true) :
    a ∈ runTakeQuiz reqs s
    ∧ ∀ b ∈ runTakeQuiz reqs s, b.id = a.id → b = a := by
  obtain ⟨hmem, hnd'⟩ :=
    runTakeQuiz_preserves_completed reqs s a hnd ha hc
  exact ⟨hmem, fun b hb hid => List.inj_on_of_nodup_map hnd' hb hmem hid⟩

/-- A concrete completed attempt of student 1 on quiz 5, scored 100. -/
def completedAttempt : QuizAttempt :=
  { id := 1, quiz_id := 5, student_id := 1, score := 100,
    completed := true, started_at := 0, completed_at := some 5 }

/-- A concrete second submission by student 1 for quiz 5. -/
def submitRequest : QuizRequest :=
  { quiz := { id := 5, questions := [] }, student := 1, now := 20,
    allowed := true, submission := some (fun _ => none), answersDb := [] }

/-- Witness for C8: a second submission after `completedAttempt` leaves the
completed attempt untouched. -/
theorem completed_attempt_immutable_witness :
    completedAttempt ∈ runTakeQuiz [submitRequest] [completedAttempt]
    ∧ ∀ b ∈ runTakeQuiz [submitRequest] [completedAttempt],
        b.id = completedAttempt.id → b = completedAttempt :=
  completed_attempt_immutable [submitRequest] [completedAttempt]
    completedAttempt (by unfold idsNodup; decide) (by decide) rfl

end EduOnline
